import Mathlib

/-!
Verification development for the hive orchestrator core (TypeScript).
The definitions below are a shallow embedding of the source files
`src/orchestrator/budget.ts` (BudgetManager, Orchestrator) and
`src/agents/agent.ts` (Agent loop), with dollar amounts modelled as
rationals and JavaScript `Map`s as association lists keyed by id.
-/

/-- Sub-ledger entry of the BudgetManager, mirroring interface `AgentBudget`
in `budget.ts` (`agentId`, `allocated`, `spent`). -/
structure AgentBudget where
  agentId : String
  allocated : ℚ
  spent : ℚ
deriving DecidableEq, Repr

/-- Events emitted by the BudgetManager, mirroring `BudgetEvents` in
`budget.ts`: `spend(agentId, amount, total, remaining)`,
`warning(agentId, percentUsed)`, `exhausted(agentId)`. -/
inductive BudgetEvent where
  | spend (agentId : String) (amount : ℚ) (total : ℚ) (remaining : ℚ)
  | warning (agentId : String) (percentUsed : ℚ)
  | exhausted (agentId : String)
deriving DecidableEq, Repr

/-- State of `class BudgetManager` in `budget.ts`: `totalBudget`,
`totalSpent`, the `agentBudgets` map (modelled as an association list keyed
by `agentId`, in insertion order like a JS `Map`), and `reserve`. -/
structure BudgetManager where
  totalBudget : ℚ
  totalSpent : ℚ
  agentBudgets : List AgentBudget
  reserve : ℚ
deriving DecidableEq, Repr

/-- Lookup in the `agentBudgets` map (`Map.get`). -/
def findAgent (l : List AgentBudget) (agentId : String) : Option AgentBudget :=
  l.find? (fun a => a.agentId == agentId)

/-- Insertion into the `agentBudgets` map (`Map.set`): replaces the entry
with the same key if present, else appends. -/
def setAgent : List AgentBudget → AgentBudget → List AgentBudget
  | [], b => [b]
  | a :: rest, b => if a.agentId == b.agentId then b :: rest else a :: setAgent rest b

/-- Removal from the `agentBudgets` map (`Map.delete`). -/
def delAgent : List AgentBudget → String → List AgentBudget
  | [], _ => []
  | a :: rest, agentId => if a.agentId == agentId then rest else a :: delAgent rest agentId

/-- In-place `agentBudget.spent += amount` when the key is present
(`recordSpend`, lines 61-64 of `budget.ts`). -/
def addSpend : List AgentBudget → String → ℚ → List AgentBudget
  | [], _, _ => []
  | a :: rest, agentId, amount =>
    if a.agentId == agentId then { a with spent := a.spent + amount } :: rest
    else a :: addSpend rest agentId amount

/-- Constructor of `BudgetManager`: `reserve = totalBudget * reservePercent`
(default 0.1). -/
def mkBudgetManager (totalBudget : ℚ) (reservePercent : ℚ) : BudgetManager :=
  { totalBudget := totalBudget
    totalSpent := 0
    agentBudgets := []
    reserve := totalBudget * reservePercent }

/-- Getter `remaining`: `max(0, totalBudget - totalSpent)`. -/
def BudgetManager.remaining (bm : BudgetManager) : ℚ :=
  max 0 (bm.totalBudget - bm.totalSpent)

/-- Method `allocate(agentId, requested)` of `budget.ts`:
`available = totalBudget - totalSpent - reserve`,
`allocated = min(requested, max(0, available))`; registers the sub-ledger
`{agentId, allocated, spent: 0}` and returns the allocated amount. -/
def BudgetManager.allocate (bm : BudgetManager) (agentId : String) (requested : ℚ) :
    BudgetManager × ℚ :=
  let available := bm.totalBudget - bm.totalSpent - bm.reserve
  let allocated := min requested (max 0 available)
  ({ bm with agentBudgets := setAgent bm.agentBudgets ⟨agentId, allocated, 0⟩ }, allocated)

/-- Method `recordSpend(agentId, amount)` of `budget.ts`: adds to the global
and (if present) per-agent spend, emits `spend`, emits `warning` when
`percentUsed >= 90` or else when `percentUsed >= 80`, and emits `exhausted`
and returns `false` when `totalSpent >= totalBudget`. The returned triple is
(new state, returned boolean, emitted events in order). -/
def BudgetManager.recordSpend (bm : BudgetManager) (agentId : String) (amount : ℚ) :
    BudgetManager × Bool × List BudgetEvent :=
  let spent1 := bm.totalSpent + amount
  let bm1 : BudgetManager :=
    { bm with totalSpent := spent1, agentBudgets := addSpend bm.agentBudgets agentId amount }
  let remaining1 := bm.totalBudget - spent1
  let percentUsed := spent1 / bm.totalBudget * 100
  let warnEvents : List BudgetEvent :=
    if 90 ≤ percentUsed then [.warning agentId percentUsed]
    else if 80 ≤ percentUsed then [.warning agentId percentUsed]
    else []
  let events := .spend agentId amount spent1 remaining1 :: warnEvents
  if bm.totalBudget ≤ spent1 then (bm1, false, events ++ [.exhausted agentId])
  else (bm1, true, events)

/-- Method `release(agentId)` of `budget.ts`: deletes the sub-ledger and
returns its unspent portion; on an unknown id returns 0 and changes
nothing. -/
def BudgetManager.release (bm : BudgetManager) (agentId : String) : BudgetManager × ℚ :=
  match findAgent bm.agentBudgets agentId with
  | none => (bm, 0)
  | some a => ({ bm with agentBudgets := delAgent bm.agentBudgets agentId }, a.allocated - a.spent)

-- Basic facts about the association-list map operations.

theorem findAgent_setAgent_self (l : List AgentBudget) (b : AgentBudget) :
    findAgent (setAgent l b) b.agentId = some b := by
  induction l with
  | nil => simp [findAgent, setAgent]
  | cons a rest ih =>
    by_cases h : a.agentId = b.agentId
    · simp [findAgent, setAgent, h]
    · simp only [setAgent, beq_iff_eq, h, if_false]
      rw [findAgent, List.find?]
      have hne : (a.agentId == b.agentId) = false := by simp [h]
      rw [hne]
      exact ih

theorem release_preserves_totals (bm : BudgetManager) (agentId : String) :
    (bm.release agentId).1.totalBudget = bm.totalBudget ∧
    (bm.release agentId).1.totalSpent = bm.totalSpent ∧
    (bm.release agentId).1.reserve = bm.reserve := by
  unfold BudgetManager.release
  cases findAgent bm.agentBudgets agentId <;> simp

/-- C1: `allocate(id, r)` returns `min(r, max(0, total − spent − reserve))`,
registers a fresh sub-ledger for `id` with that allocation and zero spend,
and the returned value is always `≤ max(0, total − spent − reserve)` and
`≤ r`. -/
theorem C1_allocate_correct (bm : BudgetManager) (agentId : String) (r : ℚ) :
    (bm.allocate agentId r).2 =
      min r (max 0 (bm.totalBudget - bm.totalSpent - bm.reserve)) ∧
    findAgent (bm.allocate agentId r).1.agentBudgets agentId =
      some ⟨agentId, (bm.allocate agentId r).2, 0⟩ ∧
    (bm.allocate agentId r).2 ≤ max 0 (bm.totalBudget - bm.totalSpent - bm.reserve) ∧
    (bm.allocate agentId r).2 ≤ r := by
  refine ⟨rfl, ?_, min_le_right _ _, min_le_left _ _⟩
  exact findAgent_setAgent_self bm.agentBudgets _

theorem recordSpend_warnEvents (bm : BudgetManager) (agentId : String) (amount : ℚ) :
    (bm.recordSpend agentId amount).2.2 =
      BudgetEvent.spend agentId amount (bm.totalSpent + amount)
          (bm.totalBudget - (bm.totalSpent + amount)) ::
        (if 80 ≤ (bm.totalSpent + amount) / bm.totalBudget * 100 then
          [BudgetEvent.warning agentId ((bm.totalSpent + amount) / bm.totalBudget * 100)]
        else []) ++
        (if bm.totalBudget ≤ bm.totalSpent + amount then [BudgetEvent.exhausted agentId]
        else []) := by
  unfold BudgetManager.recordSpend
  by_cases hex : bm.totalBudget ≤ bm.totalSpent + amount <;>
    by_cases h90 : (90:ℚ) ≤ (bm.totalSpent + amount) / bm.totalBudget * 100 <;>
    by_cases h80 : (80:ℚ) ≤ (bm.totalSpent + amount) / bm.totalBudget * 100 <;>
    simp [hex, h90, h80] <;> linarith

theorem recordSpend_fst (bm : BudgetManager) (agentId : String) (amount : ℚ) :
    (bm.recordSpend agentId amount).1 =
      { bm with totalSpent := bm.totalSpent + amount,
                agentBudgets := addSpend bm.agentBudgets agentId amount } := by
  unfold BudgetManager.recordSpend
  by_cases h : bm.totalBudget ≤ bm.totalSpent + amount <;> simp [h]

/-- C4 counterexample: after spending 85 of a 100 budget, a further spend of
1 moves usage from 85% to 86% — it crosses neither the 80% nor the 90%
band — yet `recordSpend` emits a warning on that call. -/
theorem C4_counterexample :
    (BudgetEvent.warning "a" 86 ∈
      ((((mkBudgetManager 100 (1/10)).recordSpend "a" 85).1.recordSpend "a" 1)).2.2) ∧
    (80:ℚ) ≤ 85 ∧ (86:ℚ) < 90 := by
  have h1 : ((mkBudgetManager 100 (1/10)).recordSpend "a" 85).1 =
      ⟨100, 85, [], 10⟩ := by
    rw [recordSpend_fst]
    norm_num [mkBudgetManager, addSpend]
  refine ⟨?_, by norm_num, by norm_num⟩
  rw [h1, recordSpend_warnEvents]
  norm_num

/-- C4 (amended): a call to `recordSpend` emits a warning if and only if the
post-call cumulative usage is at least 80% of the total budget — so the
warning repeats on every call at or above the threshold, not only on the
call that crosses the 80% or 90% band. -/
theorem C4_amended (bm : BudgetManager) (agentId : String) (amount : ℚ)
    (_hpos : 0 < bm.totalBudget) :
    (BudgetEvent.warning agentId ((bm.totalSpent + amount) / bm.totalBudget * 100) ∈
      (bm.recordSpend agentId amount).2.2) ↔
    80 ≤ (bm.totalSpent + amount) / bm.totalBudget * 100 := by
  rw [recordSpend_warnEvents]
  by_cases h80 : (80:ℚ) ≤ (bm.totalSpent + amount) / bm.totalBudget * 100 <;>
    by_cases hex : bm.totalBudget ≤ bm.totalSpent + amount <;>
    simp [h80, hex]

/-- C4 amended witness: with total budget 100 and a single spend of 85, the
warning fires and post-call usage is 85% ≥ 80%. -/
theorem C4_amended_witness :
    (0:ℚ) < (mkBudgetManager 100 (1/10)).totalBudget ∧
    (BudgetEvent.warning "a"
        (((mkBudgetManager 100 (1/10)).totalSpent + 85) /
          (mkBudgetManager 100 (1/10)).totalBudget * 100) ∈
      ((mkBudgetManager 100 (1/10)).recordSpend "a" 85).2.2) := by
  refine ⟨by norm_num [mkBudgetManager], ?_⟩
  rw [C4_amended _ _ _ (by norm_num [mkBudgetManager])]
  norm_num [mkBudgetManager]

/-- C9: the value returned by `allocate` depends only on `totalBudget`,
`totalSpent` and `reserve`, never on the live sub-ledgers; hence two
back-to-back allocations with no intervening spend can leave live
sub-ledgers whose allocations sum beyond `total − spent − reserve`, and
`release` never changes what later `allocate` calls return. -/
theorem C9_allocate_ignores_subledgers :
    (∀ (t s res : ℚ) (l1 l2 : List AgentBudget) (agentId : String) (r : ℚ),
      ((BudgetManager.mk t s l1 res).allocate agentId r).2 =
      ((BudgetManager.mk t s l2 res).allocate agentId r).2) ∧
    (((((mkBudgetManager 100 (1/10)).allocate "a" 50).1).allocate "b" 50).1 =
        ⟨100, 0, [⟨"a", 50, 0⟩, ⟨"b", 50, 0⟩], 10⟩ ∧
      (50:ℚ) + 50 > 100 - 0 - 10) ∧
    (∀ (bm : BudgetManager) (rid agentId : String) (r : ℚ),
      (((bm.release rid).1).allocate agentId r).2 = (bm.allocate agentId r).2) := by
  refine ⟨fun _ _ _ _ _ _ _ => rfl, ⟨?_, by norm_num⟩, fun bm rid agentId r => ?_⟩
  · norm_num [mkBudgetManager, BudgetManager.allocate, setAgent, min_def, max_def]
    decide
  · obtain ⟨h1, h2, h3⟩ := release_preserves_totals bm rid
    simp [BudgetManager.allocate, h1, h2, h3]

/-!
Agent execution loop, from `src/agents/agent.ts`. The LLM backend
(`provider.chat`) is an oracle mapping the index of the call (the number of
backend calls already made) to either a thrown error message or a response;
the tool registry (`tools.execute`, which never throws) is a total function
from tool name and arguments to the textual result. The `while
(turns < maxTurns && !aborted)` loop is modelled by structural recursion on
`fuel = maxTurns - turns`, decremented exactly when `turns` is
incremented, so `turns < maxTurns` holds iff `fuel > 0`.
-/

/-- Terminal status of an `AgentResult` (`agent.ts`). -/
inductive AgentStatus where
  | completed
  | budget_exhausted
  | max_turns
  | error
deriving DecidableEq, Repr

/-- String form of a status, as interpolated into the synthesized output. -/
def agentStatusText : AgentStatus → String
  | .completed => "completed"
  | .budget_exhausted => "budget_exhausted"
  | .max_turns => "max_turns"
  | .error => "error"

/-- A tool invocation requested by the model (`ToolCall` in provider.ts);
arguments are kept as an opaque string. -/
structure ToolCall where
  id : String
  name : String
  args : String
deriving DecidableEq, Repr

/-- Result of one tool invocation (`ToolResult`). -/
structure ToolResult where
  toolCallId : String
  content : String
deriving DecidableEq, Repr

/-- Token/cost usage returned by the backend (`Usage`). -/
structure Usage where
  inputTokens : ℕ
  outputTokens : ℕ
  cost : ℚ
deriving DecidableEq, Repr

/-- One backend response: text content, requested tool calls, usage. -/
structure BackendResponse where
  content : String
  toolCalls : List ToolCall
  usage : Usage
deriving DecidableEq, Repr

/-- One entry of the agent's message history (`Message`); image attachments
are immaterial to the claims and omitted. -/
structure Message where
  role : String
  content : String
  toolCalls : List ToolCall
  toolResults : List ToolResult
deriving DecidableEq, Repr

/-- Result of `Agent.run` (`AgentResult` in agent.ts). -/
structure AgentResult where
  id : String
  name : String
  output : String
  totalCost : ℚ
  totalInputTokens : ℕ
  totalOutputTokens : ℕ
  turns : ℕ
  status : AgentStatus
deriving DecidableEq, Repr

/-- Agent configuration (`AgentConfig`): `id` stands for the uuid assigned
at construction, `maxTurns` defaults to 100 in the source. -/
structure AgentConfig where
  id : String
  name : String
  model : String
  systemPrompt : String
  budget : ℚ
  maxTurns : ℕ
deriving DecidableEq, Repr

/-- Mutable per-run state of the Agent instance. -/
structure AgentState where
  messages : List Message
  totalCost : ℚ
  totalInputTokens : ℕ
  totalOutputTokens : ℕ
  turns : ℕ
  aborted : Bool
deriving DecidableEq, Repr

/-- The `output ?? last-meaningful-assistant-message` fallback of
`Agent.finish`: the last message with role "assistant" and truthy (non-empty)
content. -/
def lastAssistantContent (msgs : List Message) : Option String :=
  ((msgs.filter (fun m => m.role == "assistant" && m.content != "")).getLast?).map
    Message.content

/-- Method `Agent.finish(status, output?)`: output falls back to the last
non-empty assistant message, else the synthesized status string. -/
def finishResult (cfg : AgentConfig) (st : AgentState) (status : AgentStatus)
    (output : Option String) : AgentResult :=
  let finalOutput := output.getD ((lastAssistantContent st.messages).getD
    ("Agent " ++ cfg.name ++ " finished with status: " ++ agentStatusText status))
  { id := cfg.id
    name := cfg.name
    output := finalOutput
    totalCost := st.totalCost
    totalInputTokens := st.totalInputTokens
    totalOutputTokens := st.totalOutputTokens
    turns := st.turns
    status := status }

/-- The `while` loop of `Agent.run`, with the backend-call counter `calls`
returned alongside the result. Each iteration: exit `budget_exhausted` when
`totalCost >= budget` before calling the backend; a backend throw is caught
by the surrounding try/catch and finishes `error` with the exception
message; a response without tool calls finishes `completed` with its
content; otherwise every requested tool call is executed in order, a bundled
tool message is appended, and the loop continues. -/
def runLoop (cfg : AgentConfig) (backend : ℕ → Except String BackendResponse)
    (tools : String → String → String) :
    ℕ → AgentState → ℕ → AgentResult × ℕ
  | 0, st, calls =>
    (finishResult cfg st (if st.aborted then .error else .max_turns) none, calls)
  | fuel + 1, st, calls =>
    if st.aborted then (finishResult cfg st .error none, calls)
    else if cfg.budget ≤ st.totalCost then
      (finishResult cfg st .budget_exhausted none, calls)
    else
      match backend calls with
      | .error emsg => (finishResult cfg st .error (some ("Error: " ++ emsg)), calls + 1)
      | .ok resp =>
        let st1 : AgentState :=
          { st with
            totalCost := st.totalCost + resp.usage.cost
            totalInputTokens := st.totalInputTokens + resp.usage.inputTokens
            totalOutputTokens := st.totalOutputTokens + resp.usage.outputTokens
            turns := st.turns + 1 }
        if resp.toolCalls = [] then
          let st2 : AgentState :=
            { st1 with messages := st1.messages ++ [⟨"assistant", resp.content, [], []⟩] }
          (finishResult cfg st2 .completed (some resp.content), calls + 1)
        else
          let st2 : AgentState :=
            { st1 with
              messages := st1.messages ++
                [⟨"assistant", resp.content, resp.toolCalls, []⟩] ++
                [⟨"tool", "", [],
                  resp.toolCalls.map (fun tc => ⟨tc.id, tools tc.name tc.args⟩)⟩] }
          runLoop cfg backend tools fuel st2 (calls + 1)

/-- Method `Agent.run(task)`: pushes the initial user message and enters the
loop with zero totals and `aborted = false`. -/
def agentRun (cfg : AgentConfig) (backend : ℕ → Except String BackendResponse)
    (tools : String → String → String) (task : String) : AgentResult × ℕ :=
  runLoop cfg backend tools cfg.maxTurns ⟨[⟨"user", task, [], []⟩], 0, 0, 0, 0, false⟩ 0

theorem runLoop_exhausted (cfg : AgentConfig) (backend : ℕ → Except String BackendResponse)
    (tools : String → String → String) (fuel : ℕ) (st : AgentState) (calls : ℕ)
    (hfuel : fuel ≠ 0) (hab : st.aborted = false) (hb : cfg.budget ≤ st.totalCost) :
    runLoop cfg backend tools fuel st calls =
      (finishResult cfg st .budget_exhausted none, calls) := by
  cases fuel with
  | zero => exact absurd rfl hfuel
  | succ f => simp [runLoop, hab, hb]

/-- C3: with ceiling budget 0 (and the default `maxTurns = 100`), `run`
terminates `budget_exhausted` before any backend call: zero calls to the
provider and `turns = 0` — whatever the backend stub would do, in particular
for one that always requests a tool call. -/
theorem C3_zero_budget (id name model sys task : String)
    (backend : ℕ → Except String BackendResponse) (tools : String → String → String)
    (_hstub : ∀ n r, backend n = Except.ok r → r.toolCalls ≠ []) :
    (agentRun ⟨id, name, model, sys, 0, 100⟩ backend tools task).1.status =
        .budget_exhausted ∧
    (agentRun ⟨id, name, model, sys, 0, 100⟩ backend tools task).1.turns = 0 ∧
    (agentRun ⟨id, name, model, sys, 0, 100⟩ backend tools task).2 = 0 := by
  unfold agentRun
  rw [runLoop_exhausted _ _ _ _ _ _ (by norm_num) rfl le_rfl]
  exact ⟨rfl, rfl, rfl⟩

/-- C3 witness: a concrete stub that always requests one tool call, with
budget 0. -/
theorem C3_zero_budget_witness :
    (agentRun ⟨"i", "n", "m", "s", 0, 100⟩
        (fun _ => Except.ok ⟨"thinking", [⟨"c1", "bash", "ls"⟩], ⟨1, 1, 1⟩⟩)
        (fun _ _ => "ok") "go").1.status = .budget_exhausted ∧
    (agentRun ⟨"i", "n", "m", "s", 0, 100⟩
        (fun _ => Except.ok ⟨"thinking", [⟨"c1", "bash", "ls"⟩], ⟨1, 1, 1⟩⟩)
        (fun _ _ => "ok") "go").1.turns = 0 ∧
    (agentRun ⟨"i", "n", "m", "s", 0, 100⟩
        (fun _ => Except.ok ⟨"thinking", [⟨"c1", "bash", "ls"⟩], ⟨1, 1, 1⟩⟩)
        (fun _ _ => "ok") "go").2 = 0 :=
  C3_zero_budget "i" "n" "m" "s" "go" _ _ (by intro n r h; cases h; simp)

theorem ne_empty_of_left (s t : String) (hs : s.length ≠ 0) : s ++ t ≠ "" := by
  intro h
  have h' := congrArg String.length h
  rw [String.length_append] at h'
  have h0 : ("" : String).length = 0 := rfl
  rw [h0] at h'
  omega

theorem synthOutput_ne_empty (name : String) (status : AgentStatus) :
    ("Agent " ++ name ++ " finished with status: " ++ agentStatusText status) ≠ "" := by
  apply ne_empty_of_left
  rw [String.length_append, String.length_append]
  have h6 : ("Agent " : String).length = 6 := rfl
  omega

theorem lastAssistantContent_ne_empty (msgs : List Message) (s : String)
    (h : lastAssistantContent msgs = some s) : s ≠ "" := by
  unfold lastAssistantContent at h
  cases hg : (msgs.filter (fun m => m.role == "assistant" && m.content != "")).getLast? with
  | none => rw [hg] at h; simp at h
  | some m =>
    rw [hg] at h
    simp only [Option.map_some'] at h
    have hm := List.mem_of_mem_getLast? hg
    have hp := List.of_mem_filter hm
    simp only [Bool.and_eq_true, bne_iff_ne, ne_eq] at hp
    have h2 : m.content = s := by injection h
    rw [← h2]
    exact hp.2

theorem finishResult_none_output_ne (cfg : AgentConfig) (st : AgentState)
    (status : AgentStatus) : (finishResult cfg st status none).output ≠ "" := by
  unfold finishResult
  cases h : lastAssistantContent st.messages with
  | none => simpa [h] using synthOutput_ne_empty cfg.name status
  | some s => simpa [h] using lastAssistantContent_ne_empty st.messages s h

theorem runLoop_output_ne (cfg : AgentConfig) (backend : ℕ → Except String BackendResponse)
    (tools : String → String → String) :
    ∀ (fuel : ℕ) (st : AgentState) (calls : ℕ),
      (runLoop cfg backend tools fuel st calls).1.status ≠ .completed →
      (runLoop cfg backend tools fuel st calls).1.output ≠ "" := by
  intro fuel
  induction fuel with
  | zero =>
    intro st calls _
    exact finishResult_none_output_ne _ _ _
  | succ f ih =>
    intro st calls hst
    simp only [runLoop] at hst ⊢
    by_cases hab : st.aborted
    · simp only [hab, if_true]
      exact finishResult_none_output_ne _ _ _
    · simp only [hab, if_false, Bool.false_eq_true] at hst ⊢
      by_cases hb : cfg.budget ≤ st.totalCost
      · simp only [hb, if_true]
        exact finishResult_none_output_ne _ _ _
      · simp only [hb, if_false] at hst ⊢
        cases hbk : backend calls with
        | error emsg =>
          simp only [hbk, finishResult]
          apply ne_empty_of_left
          have h7 : ("Error: " : String).length = 7 := rfl
          omega
        | ok resp =>
          simp only [hbk] at hst ⊢
          by_cases htc : resp.toolCalls = []
          · simp only [htc, if_true, finishResult] at hst
            exact absurd rfl hst
          · simp only [htc, if_false] at hst ⊢
            exact ih _ _ hst

theorem runLoop_completed_proj (cfg : AgentConfig)
    (backend : ℕ → Except String BackendResponse) (tools : String → String → String)
    (fuel : ℕ) (st : AgentState) (calls : ℕ) (resp : BackendResponse)
    (hfuel : fuel ≠ 0) (hab : st.aborted = false) (hb : ¬ cfg.budget ≤ st.totalCost)
    (hbk : backend calls = .ok resp) (htc : resp.toolCalls = []) :
    (runLoop cfg backend tools fuel st calls).1.status = .completed ∧
    (runLoop cfg backend tools fuel st calls).1.output = resp.content ∧
    (runLoop cfg backend tools fuel st calls).2 = calls + 1 := by
  cases fuel with
  | zero => exact absurd rfl hfuel
  | succ f => simp [runLoop, hab, hb, hbk, htc, finishResult]

/-- C8 counterexample: a backend whose (first) response has empty text and no
tool calls makes `run` terminate `completed` with `output = ""` — the empty
explicit completion text passes through the `output ?? ...` fallback, so the
output of a terminal state is not always non-empty. -/
theorem C8_counterexample :
    (agentRun ⟨"i", "n", "m", "s", 1, 100⟩
        (fun _ => Except.ok ⟨"", [], ⟨0, 0, 0⟩⟩) (fun _ _ => "") "t").1.status =
      .completed ∧
    (agentRun ⟨"i", "n", "m", "s", 1, 100⟩
        (fun _ => Except.ok ⟨"", [], ⟨0, 0, 0⟩⟩) (fun _ _ => "") "t").1.output = "" := by
  have h := runLoop_completed_proj ⟨"i", "n", "m", "s", 1, 100⟩
    (fun _ => Except.ok ⟨"", [], ⟨0, 0, 0⟩⟩) (fun _ _ => "") 100
    ⟨[⟨"user", "t", [], []⟩], 0, 0, 0, 0, false⟩ 0 ⟨"", [], ⟨0, 0, 0⟩⟩
    (by norm_num) rfl (by norm_num) rfl rfl
  exact ⟨h.1, h.2.1⟩

/-- C8 (amended): in every terminal state other than `completed`
(budget/turn exhaustion, abort, exception), the output is non-empty — it
falls back to the last non-empty assistant message, else a synthesized
status string; a `completed` result carries the backend's completion text
verbatim, which may be empty. -/
theorem C8_amended (cfg : AgentConfig) (backend : ℕ → Except String BackendResponse)
    (tools : String → String → String) (task : String)
    (h : (agentRun cfg backend tools task).1.status ≠ .completed) :
    (agentRun cfg backend tools task).1.output ≠ "" :=
  runLoop_output_ne cfg backend tools cfg.maxTurns _ 0 h

/-- C8 amended witness: a zero-budget run ends `budget_exhausted` (not
`completed`) and its output is the non-empty synthesized status string. -/
theorem C8_amended_witness :
    (agentRun ⟨"i", "n", "m", "s", 0, 100⟩ (fun _ => Except.error "boom")
        (fun _ _ => "") "t").1.status ≠ .completed ∧
    (agentRun ⟨"i", "n", "m", "s", 0, 100⟩ (fun _ => Except.error "boom")
        (fun _ _ => "") "t").1.output ≠ "" := by
  have hs : (agentRun ⟨"i", "n", "m", "s", 0, 100⟩ (fun _ => Except.error "boom")
      (fun _ _ => "") "t").1.status = .budget_exhausted := by
    unfold agentRun
    rw [runLoop_exhausted _ _ _ _ _ _ (by norm_num) rfl le_rfl]
    rfl
  have hne : (agentRun ⟨"i", "n", "m", "s", 0, 100⟩ (fun _ => Except.error "boom")
      (fun _ _ => "") "t").1.status ≠ .completed := by
    rw [hs]; simp
  exact ⟨hne, C8_amended _ _ _ _ hne⟩

/-!
Orchestrator, from the second half of `budget.ts`. Subtask decomposition and
dependency-ordered scheduling.
-/

/-- A planned unit of work (`interface SubTask`); `agentType` and
`complexity` are kept as raw strings because the parsed planner JSON is cast
unchecked in the source (`parsed as SubTask[]`). -/
structure SubTask where
  id : Int
  description : String
  agentType : String
  complexity : String
  dependsOn : List Int
deriving DecidableEq, Repr

/-- Accumulator of `topologicalSort`: the `sorted` output list and the
`visited` id set (as a list). -/
structure TopoState where
  sorted : List SubTask
  visited : List Int
deriving DecidableEq, Repr

/-- The recursive `visit` closure of `Orchestrator.topologicalSort`: skip if
the id was visited, else mark it visited, visit each dependency that
resolves via `subtasks.find`, then push the task. The recursion is made
total with a fuel argument; `topologicalSort` supplies fuel
`subtasks.length + 1`, which the lemmas below show is never exhausted, so
the fuelled function agrees with the unbounded source recursion. -/
def visit (subtasks : List SubTask) : ℕ → SubTask → TopoState → TopoState
  | 0, _, st => st
  | fuel + 1, task, st =>
    if task.id ∈ st.visited then st
    else
      let st1 : TopoState := ⟨st.sorted, task.id :: st.visited⟩
      let st2 := task.dependsOn.foldl
        (fun s d =>
          match subtasks.find? (fun t => t.id == d) with
          | some dep => visit subtasks fuel dep s
          | none => s) st1
      ⟨st2.sorted ++ [task], st2.visited⟩

/-- Method `Orchestrator.topologicalSort(subtasks)`: run `visit` over every
subtask in input order, starting from an empty accumulator. -/
def topologicalSort (subtasks : List SubTask) : List SubTask :=
  (subtasks.foldl (fun st task => visit subtasks (subtasks.length + 1) task st)
    ⟨[], []⟩).sorted

/-- Count of subtask ids not yet visited; the decreasing measure showing the
fuel in `topologicalSort` suffices. -/
def unvisitedCount (subtasks : List SubTask) (st : TopoState) : ℕ :=
  ((subtasks.map SubTask.id).toFinset \ st.visited.toFinset).card

/-- Relation between the accumulator before and after a (sub)run of the DFS:
the sorted output grows by a block `added` of subtasks whose ids were all
unvisited before and are pairwise distinct, and the visited set grows by
exactly the ids of that block. -/
def VisitSpec (subtasks : List SubTask) (before after : TopoState)
    (added : List SubTask) : Prop :=
  after.sorted = before.sorted ++ added ∧
  (∀ t ∈ added, t ∈ subtasks) ∧
  (added.map SubTask.id).Nodup ∧
  (∀ t ∈ added, t.id ∉ before.visited) ∧
  after.visited.toFinset = before.visited.toFinset ∪ (added.map SubTask.id).toFinset

theorem VisitSpec.refl_spec (subtasks : List SubTask) (st : TopoState) :
    VisitSpec subtasks st st [] := by
  refine ⟨by simp, by simp, by simp, by simp, by simp⟩

theorem VisitSpec.trans_spec (subtasks : List SubTask) {s1 s2 s3 : TopoState}
    {a b : List SubTask} (h1 : VisitSpec subtasks s1 s2 a)
    (h2 : VisitSpec subtasks s2 s3 b) : VisitSpec subtasks s1 s3 (a ++ b) := by
  obtain ⟨hs1, hm1, hn1, hv1, hf1⟩ := h1
  obtain ⟨hs2, hm2, hn2, hv2, hf2⟩ := h2
  have hsub12 : s1.visited.toFinset ⊆ s2.visited.toFinset := by
    rw [hf1]; exact Finset.subset_union_left
  refine ⟨by rw [hs2, hs1, List.append_assoc], ?_, ?_, ?_, ?_⟩
  · intro t ht
    rcases List.mem_append.mp ht with h | h
    · exact hm1 t h
    · exact hm2 t h
  · rw [List.map_append, List.nodup_append]
    refine ⟨hn1, hn2, ?_⟩
    intro x hxa hxb
    rcases List.mem_map.mp hxb with ⟨t, htb, rfl⟩
    apply hv2 t htb
    rw [← List.mem_toFinset]
    rw [hf1]
    exact Finset.mem_union_right _ (by rw [List.mem_toFinset]; exact hxa)
  · intro t ht
    rcases List.mem_append.mp ht with h | h
    · exact hv1 t h
    · intro habs
      exact hv2 t h (by
        rw [← List.mem_toFinset]
        exact hsub12 (List.mem_toFinset.mpr habs))
  · rw [hf2, hf1, List.map_append, List.toFinset_append, Finset.union_assoc]

theorem unvisited_mono (subtasks : List SubTask) {s s' : TopoState}
    (h : s.visited.toFinset ⊆ s'.visited.toFinset) :
    unvisitedCount subtasks s' ≤ unvisitedCount subtasks s :=
  Finset.card_le_card (Finset.sdiff_subset_sdiff (Finset.Subset.refl _) h)

theorem unvisitedCount_le (subtasks : List SubTask) (st : TopoState) :
    unvisitedCount subtasks st ≤ subtasks.length := by
  calc ((subtasks.map SubTask.id).toFinset \ st.visited.toFinset).card
      ≤ (subtasks.map SubTask.id).toFinset.card :=
        Finset.card_le_card (Finset.sdiff_subset)
    _ ≤ (subtasks.map SubTask.id).length := List.toFinset_card_le _
    _ = subtasks.length := List.length_map _ _


/-- The inner `for (const depId of task.dependsOn)` loop of `visit`, named so
the lemmas can speak about it; definitionally equal to the fold inlined in
`visit`. -/
def depFold (subtasks : List SubTask) (f : ℕ) (ds : List Int) (s : TopoState) : TopoState :=
  ds.foldl
    (fun s d =>
      match subtasks.find? (fun t => t.id == d) with
      | some dep => visit subtasks f dep s
      | none => s) s

theorem depFold_nil (subtasks : List SubTask) (f : ℕ) (s : TopoState) :
    depFold subtasks f [] s = s := rfl

theorem depFold_cons (subtasks : List SubTask) (f : ℕ) (d : Int) (ds : List Int)
    (s : TopoState) :
    depFold subtasks f (d :: ds) s =
      depFold subtasks f ds
        (match subtasks.find? (fun t => t.id == d) with
        | some dep => visit subtasks f dep s
        | none => s) := rfl

theorem visit_zero (subtasks : List SubTask) (task : SubTask) (st : TopoState) :
    visit subtasks 0 task st = st := rfl

theorem visit_succ_visited (subtasks : List SubTask) (f : ℕ) (task : SubTask)
    (st : TopoState) (hvis : task.id ∈ st.visited) :
    visit subtasks (f + 1) task st = st := by
  simp [visit, hvis]

theorem visit_succ_not_visited (subtasks : List SubTask) (f : ℕ) (task : SubTask)
    (st : TopoState) (hvis : task.id ∉ st.visited) :
    visit subtasks (f + 1) task st =
      ⟨(depFold subtasks f task.dependsOn ⟨st.sorted, task.id :: st.visited⟩).sorted ++ [task],
        (depFold subtasks f task.dependsOn ⟨st.sorted, task.id :: st.visited⟩).visited⟩ := by
  simp [visit, hvis, depFold]

theorem visit_spec (subtasks : List SubTask) :
    ∀ (fuel : ℕ) (task : SubTask) (st : TopoState),
      task ∈ subtasks →
      unvisitedCount subtasks st < fuel →
      ∃ added, VisitSpec subtasks st (visit subtasks fuel task st) added ∧
        task.id ∈ (visit subtasks fuel task st).visited := by
  intro fuel
  induction fuel with
  | zero => intro task st _ hcount; omega
  | succ f ih =>
    intro task st htask hcount
    by_cases hvis : task.id ∈ st.visited
    · rw [visit_succ_visited subtasks f task st hvis]
      exact ⟨[], VisitSpec.refl_spec subtasks st, hvis⟩
    · have hmemid : task.id ∈ (subtasks.map SubTask.id).toFinset := by
        rw [List.mem_toFinset]
        exact List.mem_map.mpr ⟨task, htask, rfl⟩
      have hniv : task.id ∉ st.visited.toFinset := fun h => hvis (List.mem_toFinset.mp h)
      have hst1count :
          unvisitedCount subtasks ⟨st.sorted, task.id :: st.visited⟩ + 1 =
            unvisitedCount subtasks st := by
        unfold unvisitedCount
        have hins : (task.id :: st.visited).toFinset = insert task.id st.visited.toFinset := by
          simp
        rw [hins, Finset.sdiff_insert]
        rw [Finset.card_erase_of_mem (Finset.mem_sdiff.mpr ⟨hmemid, hniv⟩)]
        have hpos : 0 < ((subtasks.map SubTask.id).toFinset \ st.visited.toFinset).card :=
          Finset.card_pos.mpr ⟨task.id, Finset.mem_sdiff.mpr ⟨hmemid, hniv⟩⟩
        omega
      have hfold :
          ∀ (ds : List Int) (s : TopoState), unvisitedCount subtasks s < f →
            ∃ added, VisitSpec subtasks s (depFold subtasks f ds s) added := by
        intro ds
        induction ds with
        | nil =>
          intro s _
          rw [depFold_nil]
          exact ⟨[], VisitSpec.refl_spec subtasks s⟩
        | cons d ds' ihd =>
          intro s hs
          rw [depFold_cons]
          cases hfind : subtasks.find? (fun t => t.id == d) with
          | none => exact ihd s hs
          | some dep =>
            have hdep : dep ∈ subtasks := List.mem_of_find?_eq_some hfind
            obtain ⟨a1, hspec1, _⟩ := ih dep s hdep hs
            have hmono : s.visited.toFinset ⊆ (visit subtasks f dep s).visited.toFinset := by
              rw [hspec1.2.2.2.2]; exact Finset.subset_union_left
            have hs' : unvisitedCount subtasks (visit subtasks f dep s) < f :=
              lt_of_le_of_lt (unvisited_mono subtasks hmono) hs
            obtain ⟨a2, hspec2⟩ := ihd (visit subtasks f dep s) hs'
            exact ⟨a1 ++ a2, VisitSpec.trans_spec subtasks hspec1 hspec2⟩
      have hlt1 : unvisitedCount subtasks ⟨st.sorted, task.id :: st.visited⟩ < f := by omega
      obtain ⟨added, hspec⟩ :=
        hfold task.dependsOn ⟨st.sorted, task.id :: st.visited⟩ hlt1
      obtain ⟨hs', hm', hn', hv', hf'⟩ := hspec
      rw [visit_succ_not_visited subtasks f task st hvis]
      refine ⟨added ++ [task], ⟨?_, ?_, ?_, ?_, ?_⟩, ?_⟩
      · simp only [hs']
        simp [List.append_assoc]
      · intro t ht
        rcases List.mem_append.mp ht with h | h
        · exact hm' t h
        · rw [List.mem_singleton.mp h]; exact htask
      · rw [List.map_append, List.nodup_append]
        refine ⟨hn', by simp, ?_⟩
        intro x hxa hxb
        rcases List.mem_map.mp hxa with ⟨t, hta, rfl⟩
        have hnv := hv' t hta
        simp only [List.map_cons, List.map_nil, List.mem_singleton] at hxb
        exact hnv (by rw [hxb]; exact List.mem_cons_self _ _)
      · intro t ht
        rcases List.mem_append.mp ht with h | h
        · intro habs
          exact hv' t h (List.mem_cons_of_mem _ habs)
        · rw [List.mem_singleton.mp h]; exact hvis
      · simp only [hf']
        have hcons : (task.id :: st.visited).toFinset =
            insert task.id st.visited.toFinset := by simp
        rw [List.map_append]
        simp only [List.map_cons, List.map_nil]
        rw [List.toFinset_append]
        ext y
        simp only [hcons, Finset.mem_union, Finset.mem_insert, List.toFinset_cons,
          List.toFinset_nil, insert_emptyc_eq, Finset.mem_singleton]
        tauto
      · rw [← List.mem_toFinset, hf']
        apply Finset.mem_union_left
        simp

theorem visit_full_spec (subtasks : List SubTask) (task : SubTask) (st : TopoState)
    (htask : task ∈ subtasks) :
    ∃ added,
      VisitSpec subtasks st (visit subtasks (subtasks.length + 1) task st) added ∧
      task.id ∈ (visit subtasks (subtasks.length + 1) task st).visited :=
  visit_spec subtasks (subtasks.length + 1) task st htask
    (lt_of_le_of_lt (unvisitedCount_le subtasks st) (Nat.lt_succ_self _))

/-- Invariant of the outer loop of `topologicalSort`: the output so far
consists of input subtasks with pairwise distinct ids, and the visited set
is exactly the set of output ids. -/
def TopoInv (subtasks : List SubTask) (st : TopoState) : Prop :=
  (∀ t ∈ st.sorted, t ∈ subtasks) ∧
  (st.sorted.map SubTask.id).Nodup ∧
  st.visited.toFinset = (st.sorted.map SubTask.id).toFinset

theorem topoInv_step (subtasks : List SubTask) (st : TopoState) (task : SubTask)
    (htask : task ∈ subtasks) (hinv : TopoInv subtasks st) :
    TopoInv subtasks (visit subtasks (subtasks.length + 1) task st) ∧
    st.visited.toFinset ⊆ (visit subtasks (subtasks.length + 1) task st).visited.toFinset ∧
    task.id ∈ (visit subtasks (subtasks.length + 1) task st).visited.toFinset := by
  obtain ⟨added, ⟨hs, hm, hn, hv, hf⟩, hid⟩ := visit_full_spec subtasks task st htask
  obtain ⟨hinvm, hinvn, hinvv⟩ := hinv
  refine ⟨⟨?_, ?_, ?_⟩, ?_, List.mem_toFinset.mpr hid⟩
  · intro t ht
    rw [hs] at ht
    rcases List.mem_append.mp ht with h | h
    · exact hinvm t h
    · exact hm t h
  · rw [hs, List.map_append, List.nodup_append]
    refine ⟨hinvn, hn, ?_⟩
    intro x hxa hxb
    rcases List.mem_map.mp hxb with ⟨t, htb, rfl⟩
    apply hv t htb
    rw [← List.mem_toFinset, hinvv, List.mem_toFinset]
    exact hxa
  · rw [hs, hf, hinvv, List.map_append, List.toFinset_append]
  · rw [hf]
    exact Finset.subset_union_left

theorem topoFold_inv (subtasks : List SubTask) :
    ∀ (l : List SubTask) (st : TopoState),
      (∀ t ∈ l, t ∈ subtasks) → TopoInv subtasks st →
      TopoInv subtasks
        (l.foldl (fun st task => visit subtasks (subtasks.length + 1) task st) st) ∧
      st.visited.toFinset ⊆
        (l.foldl (fun st task =>
          visit subtasks (subtasks.length + 1) task st) st).visited.toFinset ∧
      ∀ t ∈ l, t.id ∈
        (l.foldl (fun st task =>
          visit subtasks (subtasks.length + 1) task st) st).visited.toFinset := by
  intro l
  induction l with
  | nil => intro st _ hinv; exact ⟨hinv, Finset.Subset.refl _, by simp⟩
  | cons t l' ihl =>
    intro st hmem hinv
    rw [List.foldl_cons]
    obtain ⟨hinv', hmono', hid'⟩ :=
      topoInv_step subtasks st t (hmem t (List.mem_cons_self _ _)) hinv
    obtain ⟨hinvf, hmonof, hidf⟩ :=
      ihl _ (fun u hu => hmem u (List.mem_cons_of_mem _ hu)) hinv'
    refine ⟨hinvf, Finset.Subset.trans hmono' hmonof, ?_⟩
    intro u hu
    rcases List.mem_cons.mp hu with h | h
    · rw [h]; exact hmonof hid'
    · exact hidf u h

/-- C10: for every list of subtasks with pairwise distinct ids,
`topologicalSort` terminates (it is a total function; its DFS fuel
`subtasks.length + 1` is shown never to run out) and returns a permutation
of the input — each input subtask appears exactly once — even when
`dependsOn` is cyclic or mentions ids absent from the list. -/
theorem C10_toposort_perm (subtasks : List SubTask)
    (hids : (subtasks.map SubTask.id).Nodup) :
    (topologicalSort subtasks).Perm subtasks := by
  have hinv0 : TopoInv subtasks ⟨[], []⟩ := ⟨by simp, by simp, by simp⟩
  obtain ⟨⟨hmem, hnodup, hvis⟩, _, hall⟩ :=
    topoFold_inv subtasks subtasks ⟨[], []⟩ (fun t ht => ht) hinv0
  unfold topologicalSort
  have hsub2 : ∀ t ∈ subtasks,
      t ∈ (subtasks.foldl (fun st task =>
        visit subtasks (subtasks.length + 1) task st) ⟨[], []⟩).sorted := by
    intro t ht
    have hidt := hall t ht
    rw [hvis] at hidt
    rcases List.mem_map.mp (List.mem_toFinset.mp hidt) with ⟨u, hu, huid⟩
    have hueq : u = t := List.inj_on_of_nodup_map hids (hmem u hu) ht huid
    rwa [← hueq]
  exact List.Subperm.antisymm
    (List.subperm_of_subset (hnodup.of_map _) (fun x hx => hmem x hx))
    (List.subperm_of_subset (hids.of_map _) (fun x hx => hsub2 x hx))

/-- C10 witness: a concrete list with distinct ids, a dependency cycle
(1 depends on 2, 2 depends on 1) and a dangling dependency id (99):
`topologicalSort` still returns a permutation of the input. -/
theorem C10_toposort_perm_witness :
    (([⟨1, "a", "coder", "simple", [2]⟩,
        ⟨2, "b", "coder", "simple", [1, 99]⟩] : List SubTask).map SubTask.id).Nodup ∧
    (topologicalSort [⟨1, "a", "coder", "simple", [2]⟩,
        ⟨2, "b", "coder", "simple", [1, 99]⟩]).Perm
      [⟨1, "a", "coder", "simple", [2]⟩, ⟨2, "b", "coder", "simple", [1, 99]⟩] :=
  ⟨by decide, C10_toposort_perm _ (by decide)⟩

/-!
Orchestrator task execution (`Orchestrator.runTask`, `planTask`, `runAgent`
in `budget.ts`). External effects are oracles: `plan` is the outcome of the
planning phase — either a thrown error message (e.g. a missing provider) or
the spend amounts recorded under id "planner" during the planner agent's run
together with the parsed decomposition (the source maps every parse failure
and non-array or empty result to `[]`, so the oracle yields the final parsed
list); `agentRuns n` is the outcome of the n-th `runAgent` call — either a
thrown error message (missing provider or unknown preset, both raised
before any spend) or the spend amounts recorded during the run together
with the returned `AgentResult` (`Agent.run` itself never throws);
`agentIds n` is the uuid of the n-th constructed agent. The task uuid and
event emissions are immaterial to the claims and omitted.
-/

/-- The fixed preset table (`AGENT_PRESETS` in presets.ts), keyed by preset
id with the display name (system prompts are immaterial here). -/
def AGENT_PRESETS : List (String × String) :=
  [("planner", "Planner"), ("coder", "Coder"),
   ("researcher", "Researcher"), ("reviewer", "Reviewer")]

/-- Terminal status of a `TaskResult`. -/
inductive TaskStatus where
  | completed
  | budget_exhausted
  | error
deriving DecidableEq, Repr

/-- Result of `runTask` (`TaskResult` in budget.ts; the task uuid is
omitted). -/
structure TaskResult where
  task : String
  output : String
  totalCost : ℚ
  agentResults : List AgentResult
  status : TaskStatus
deriving DecidableEq, Repr

/-- Configuration of `runTask` (`TaskConfig`; `model` and `repo` only select
the provider oracle and are omitted). -/
structure TaskConfig where
  task : String
  budget : ℚ
deriving DecidableEq, Repr

/-- Record of one `agent.run(...)` call issued by the orchestrator: the
preset used, the task text given to the agent, the budget allocated for it,
and the subtask id in the complex path (`none` on the simple path). -/
structure AgentInvocation where
  preset : String
  description : String
  allocated : ℚ
  subtaskId : Option Int
deriving DecidableEq, Repr

/-- Orchestrator state threaded through `runTask`: the BudgetManager, the
collected `agentResults`, the issued agent invocations, the `completed`
subtask-id set, and the index of the next agent uuid to draw. -/
structure OrchSt where
  bm : BudgetManager
  results : List AgentResult
  invocations : List AgentInvocation
  completedIds : List Int
  nextIdx : ℕ
deriving DecidableEq, Repr

/-- Repeated `budgetManager.recordSpend(id, cost)` from the agent's
`cost_update` events during one run. -/
def foldRecordSpend (bm : BudgetManager) (agentId : String) (costs : List ℚ) :
    BudgetManager :=
  costs.foldl (fun b c => (b.recordSpend agentId c).1) bm

theorem foldRecordSpend_fields (agentId : String) :
    ∀ (costs : List ℚ) (bm : BudgetManager),
      (foldRecordSpend bm agentId costs).totalBudget = bm.totalBudget ∧
      (foldRecordSpend bm agentId costs).totalSpent = bm.totalSpent + costs.sum ∧
      (foldRecordSpend bm agentId costs).reserve = bm.reserve := by
  intro costs
  induction costs with
  | nil => intro bm; simp [foldRecordSpend]
  | cons c cs ihc =>
    intro bm
    have hstep := recordSpend_fst bm agentId c
    have h := ihc (bm.recordSpend agentId c).1
    unfold foldRecordSpend at h ⊢
    rw [List.foldl_cons]
    refine ⟨?_, ?_, ?_⟩
    · rw [h.1, hstep]
    · rw [h.2.1, hstep]
      simp
      ring
    · rw [h.2.2, hstep]

/-- Method `Orchestrator.runAgent(taskId, preset, task, ...)`: a provider or
preset-table failure throws before any spend; otherwise the agent (with
fresh uuid `agentId`) runs, its `cost_update` events record spend under
`agentId`, and on return `budgetManager.release(agentId)` is called — note
the release uses the agent's uuid, not the key the allocation was made
under. -/
def runAgentO (preset : String) (behavior : Except String (List ℚ × AgentResult))
    (agentId : String) (bm : BudgetManager) : Except String (AgentResult × BudgetManager) :=
  match behavior with
  | .error m => .error m
  | .ok (costs, result) =>
    match AGENT_PRESETS.find? (fun p => p.1 == preset) with
    | none => .error "Cannot read properties of undefined"
    | some _ =>
      let bm1 := foldRecordSpend bm agentId costs
      let bm2 := (bm1.release agentId).1
      .ok (result, bm2)

/-- Method `Orchestrator.planTask`: returns `[]` immediately when the plan
budget is `<= 0`; otherwise the planner agent runs (spend recorded under
"planner") and its output is parsed, every failure yielding `[]` — the
oracle provides the parse outcome directly. -/
def planTaskO (planBudget : ℚ) (behavior : Except String (List ℚ × List SubTask))
    (bm : BudgetManager) : Except String (List SubTask × BudgetManager) :=
  if planBudget ≤ 0 then .ok ([], bm)
  else
    match behavior with
    | .error m => .error m
    | .ok (costs, subs) => .ok (subs, foldRecordSpend bm "planner" costs)

/-- The subtask scheduling loop of the complex path of `runTask`: iterate
the topologically sorted subtasks; break when `remaining <= 0`; skip a
subtask whose dependencies are not all completed; allocate
`config.budget * multiplier(complexity)` under key `agent-<id>`; break when
the allocation is `<= 0` (the just-registered sub-ledger stays); run the
agent, collect its result and mark the subtask completed whatever the
result's status. A thrown error aborts the whole task, carrying the state
for the catch clause. -/
def schedLoop (cfg : TaskConfig) (agentRuns : ℕ → Except String (List ℚ × AgentResult))
    (agentIds : ℕ → String) :
    List SubTask → OrchSt → Except (String × OrchSt) OrchSt
  | [], st => .ok st
  | sub :: rest, st =>
    if st.bm.remaining ≤ 0 then .ok st
    else if ¬ (sub.dependsOn.all (fun d => st.completedIds.contains d)) then
      schedLoop cfg agentRuns agentIds rest st
    else
      let mult : ℚ :=
        if sub.complexity == "complex" then 35 / 100
        else if sub.complexity == "medium" then 20 / 100
        else 10 / 100
      let alloc := st.bm.allocate ("agent-" ++ toString sub.id) (cfg.budget * mult)
      if alloc.2 ≤ 0 then .ok { st with bm := alloc.1 }
      else
        match runAgentO sub.agentType (agentRuns st.nextIdx) (agentIds st.nextIdx) alloc.1 with
        | .error m => .error (m, { st with bm := alloc.1 })
        | .ok (r, bm2) =>
          schedLoop cfg agentRuns agentIds rest
            { bm := bm2
              results := st.results ++ [r]
              invocations := st.invocations ++
                [⟨sub.agentType, sub.description, alloc.2, some sub.id⟩]
              completedIds := sub.id :: st.completedIds
              nextIdx := st.nextIdx + 1 }

/-- The body of the `try` block of `runTask`: create the BudgetManager
(reserve 10%), allocate 10% of the budget to the planner, plan, then either
the simple path (no subtasks: allocate all of `remaining` to one
coder-preset agent run on the original task) or the complex path
(dependency-ordered scheduling). An error value is the exception reaching
the catch clause, paired with the state at that point. -/
def runTaskCore (cfg : TaskConfig) (plan : Except String (List ℚ × List SubTask))
    (agentRuns : ℕ → Except String (List ℚ × AgentResult)) (agentIds : ℕ → String) :
    Except (String × OrchSt) OrchSt :=
  let bm0 := mkBudgetManager cfg.budget (1 / 10)
  let a := bm0.allocate "planner" (cfg.budget * (1 / 10))
  match planTaskO a.2 plan a.1 with
  | .error m => .error (m, ⟨a.1, [], [], [], 0⟩)
  | .ok (subs, bm2) =>
    if subs.isEmpty then
      let al := bm2.allocate "single-coder" bm2.remaining
      match runAgentO "coder" (agentRuns 0) (agentIds 0) al.1 with
      | .error m => .error (m, ⟨al.1, [], [], [], 0⟩)
      | .ok (r, bm4) => .ok ⟨bm4, [r], [⟨"coder", cfg.task, al.2, none⟩], [], 1⟩
    else
      schedLoop cfg agentRuns agentIds (topologicalSort subs) ⟨bm2, [], [], [], 0⟩

/-- The final state reached by `runTaskCore`, whether or not an exception
was thrown. -/
def outSt : Except (String × OrchSt) OrchSt → OrchSt
  | .ok st => st
  | .error (_, st) => st

/-- Method `Orchestrator.runTask`: wraps `runTaskCore` in the try/catch —
on success, aggregate the output and set status `budget_exhausted` iff
`remaining <= 0`; on a caught exception, return status `error` with output
`Error: <message>`, the spend so far, and the already-collected results. -/
def runTaskModel (cfg : TaskConfig) (plan : Except String (List ℚ × List SubTask))
    (agentRuns : ℕ → Except String (List ℚ × AgentResult)) (agentIds : ℕ → String) :
    TaskResult × OrchSt :=
  match runTaskCore cfg plan agentRuns agentIds with
  | .ok st =>
    ({ task := cfg.task
       output := String.intercalate "\n\n" (st.results.map (fun r =>
         "[" ++ r.name ++ "] " ++ agentStatusText r.status ++ ": " ++ r.output.take 500))
       totalCost := st.bm.totalSpent
       agentResults := st.results
       status := if st.bm.remaining ≤ 0 then .budget_exhausted else .completed }, st)
  | .error (m, st) =>
    ({ task := cfg.task
       output := "Error: " ++ m
       totalCost := st.bm.totalSpent
       agentResults := st.results
       status := .error }, st)

/-- C2: any exception thrown inside the try block of `runTask` is caught
and turned into a returned TaskResult (never a throw): the status is
`error` exactly when an exception occurred, and in that case the output is
`Error: <message>`, the agentResults are exactly those already collected
when the exception was raised, and totalCost is the spend so far. -/
theorem C2_exception_to_error_result (cfg : TaskConfig)
    (plan : Except String (List ℚ × List SubTask))
    (agentRuns : ℕ → Except String (List ℚ × AgentResult)) (agentIds : ℕ → String) :
    ((runTaskModel cfg plan agentRuns agentIds).1.status = .error ↔
      ∃ m st, runTaskCore cfg plan agentRuns agentIds = .error (m, st)) ∧
    (∀ m st, runTaskCore cfg plan agentRuns agentIds = .error (m, st) →
      (runTaskModel cfg plan agentRuns agentIds).1 =
        ⟨cfg.task, "Error: " ++ m, st.bm.totalSpent, st.results, .error⟩) := by
  unfold runTaskModel
  cases h : runTaskCore cfg plan agentRuns agentIds with
  | ok st =>
    refine ⟨⟨fun hs => ?_, ?_⟩, ?_⟩
    · by_cases hr : st.bm.remaining ≤ 0 <;> simp [hr] at hs
    · rintro ⟨m, st', heq⟩
      simp at heq
    · intro m st' heq
      simp at heq
  | error p =>
    obtain ⟨m, st⟩ := p
    refine ⟨⟨fun _ => ⟨m, st, rfl⟩, fun _ => rfl⟩, ?_⟩
    intro m' st' heq
    injection heq with heq'
    cases heq'
    rfl

-- Unfolding equations used to evaluate `runTaskCore` step by step.

theorem allocate_eq (bm : BudgetManager) (agentId : String) (req : ℚ) :
    bm.allocate agentId req =
      ({ bm with agentBudgets := (setAgent bm.agentBudgets
          ⟨agentId, min req (max 0 (bm.totalBudget - bm.totalSpent - bm.reserve)), 0⟩) },
        min req (max 0 (bm.totalBudget - bm.totalSpent - bm.reserve))) := rfl

theorem remaining_eq (bm : BudgetManager) :
    bm.remaining = max 0 (bm.totalBudget - bm.totalSpent) := rfl

theorem release_none (bm : BudgetManager) (agentId : String)
    (h : findAgent bm.agentBudgets agentId = none) :
    bm.release agentId = (bm, 0) := by
  simp [BudgetManager.release, h]

theorem planner_alloc (b : ℚ) (hb : 0 < b) :
    (mkBudgetManager b (1 / 10)).allocate "planner" (b * (1 / 10)) =
      (⟨b, 0, [⟨"planner", b * (1 / 10), 0⟩], b * (1 / 10)⟩, b * (1 / 10)) := by
  have h1 : max 0 (b - 0 - b * (1 / 10)) = b - 0 - b * (1 / 10) :=
    max_eq_right (by linarith)
  have h2 : min (b * (1 / 10)) (b - 0 - b * (1 / 10)) = b * (1 / 10) :=
    min_eq_left (by linarith)
  simp [mkBudgetManager, BudgetManager.allocate, setAgent, h1, h2]
  right
  linarith

theorem runTaskCore_eq (cfg : TaskConfig) (plan : Except String (List ℚ × List SubTask))
    (agentRuns : ℕ → Except String (List ℚ × AgentResult)) (agentIds : ℕ → String) :
    runTaskCore cfg plan agentRuns agentIds =
      (fun a : BudgetManager × ℚ =>
        match planTaskO a.2 plan a.1 with
        | .error m => .error (m, ⟨a.1, [], [], [], 0⟩)
        | .ok (subs, bm2) =>
          if subs.isEmpty then
            (fun al : BudgetManager × ℚ =>
              match runAgentO "coder" (agentRuns 0) (agentIds 0) al.1 with
              | .error m => .error (m, ⟨al.1, [], [], [], 0⟩)
              | .ok (r, bm4) => .ok ⟨bm4, [r], [⟨"coder", cfg.task, al.2, none⟩], [], 1⟩)
              (bm2.allocate "single-coder" bm2.remaining)
          else schedLoop cfg agentRuns agentIds (topologicalSort subs) ⟨bm2, [], [], [], 0⟩)
        ((mkBudgetManager cfg.budget (1 / 10)).allocate "planner" (cfg.budget * (1 / 10))) :=
  rfl

theorem planTaskO_zero (planBudget : ℚ) (plan : Except String (List ℚ × List SubTask))
    (bm : BudgetManager) (h : planBudget ≤ 0) :
    planTaskO planBudget plan bm = .ok ([], bm) := by
  simp [planTaskO, h]

theorem planTaskO_ok (planBudget : ℚ) (costs : List ℚ) (subs : List SubTask)
    (bm : BudgetManager) (h : ¬ planBudget ≤ 0) :
    planTaskO planBudget (.ok (costs, subs)) bm =
      .ok (subs, foldRecordSpend bm "planner" costs) := by
  simp [planTaskO, h]

theorem planTaskO_throw (planBudget : ℚ) (m : String) (bm : BudgetManager)
    (h : ¬ planBudget ≤ 0) :
    planTaskO planBudget (.error m) bm = .error m := by
  simp [planTaskO, h]

theorem runAgentO_throw (preset : String) (m : String) (agentId : String)
    (bm : BudgetManager) : runAgentO preset (.error m) agentId bm = .error m := rfl

theorem runAgentO_ok (preset : String) (costs : List ℚ) (r : AgentResult)
    (agentId : String) (bm : BudgetManager) (p : String × String)
    (hp : AGENT_PRESETS.find? (fun q => q.1 == preset) = some p) :
    runAgentO preset (.ok (costs, r)) agentId bm =
      .ok (r, ((foldRecordSpend bm agentId costs).release agentId).1) := by
  simp [runAgentO, hp]

theorem runAgentO_badpreset (preset : String) (costs : List ℚ) (r : AgentResult)
    (agentId : String) (bm : BudgetManager)
    (hp : AGENT_PRESETS.find? (fun q => q.1 == preset) = none) :
    runAgentO preset (.ok (costs, r)) agentId bm =
      .error "Cannot read properties of undefined" := by
  simp [runAgentO, hp]

theorem runTaskModel_snd (cfg : TaskConfig) (plan : Except String (List ℚ × List SubTask))
    (agentRuns : ℕ → Except String (List ℚ × AgentResult)) (agentIds : ℕ → String) :
    (runTaskModel cfg plan agentRuns agentIds).2 =
      outSt (runTaskCore cfg plan agentRuns agentIds) := by
  unfold runTaskModel outSt
  cases h : runTaskCore cfg plan agentRuns agentIds with
  | ok st => rfl
  | error p => obtain ⟨m, st⟩ := p; rfl

theorem schedLoop_nil (cfg : TaskConfig) (agentRuns : ℕ → Except String (List ℚ × AgentResult))
    (agentIds : ℕ → String) (st : OrchSt) :
    schedLoop cfg agentRuns agentIds [] st = .ok st := rfl

theorem schedLoop_break (cfg : TaskConfig)
    (agentRuns : ℕ → Except String (List ℚ × AgentResult)) (agentIds : ℕ → String)
    (sub : SubTask) (rest : List SubTask) (st : OrchSt) (h : st.bm.remaining ≤ 0) :
    schedLoop cfg agentRuns agentIds (sub :: rest) st = .ok st := by
  simp [schedLoop, h]

theorem schedLoop_skip (cfg : TaskConfig)
    (agentRuns : ℕ → Except String (List ℚ × AgentResult)) (agentIds : ℕ → String)
    (sub : SubTask) (rest : List SubTask) (st : OrchSt) (hrem : ¬ st.bm.remaining ≤ 0)
    (hdeps : (sub.dependsOn.all (fun d => st.completedIds.contains d)) = false) :
    schedLoop cfg agentRuns agentIds (sub :: rest) st =
      schedLoop cfg agentRuns agentIds rest st := by
  simp only [schedLoop]
  rw [if_neg hrem, if_pos (by rw [hdeps]; simp)]

theorem schedLoop_ready (cfg : TaskConfig)
    (agentRuns : ℕ → Except String (List ℚ × AgentResult)) (agentIds : ℕ → String)
    (sub : SubTask) (rest : List SubTask) (st : OrchSt) (hrem : ¬ st.bm.remaining ≤ 0)
    (hdeps : (sub.dependsOn.all (fun d => st.completedIds.contains d)) = true) :
    schedLoop cfg agentRuns agentIds (sub :: rest) st =
      (fun alloc : BudgetManager × ℚ =>
        if alloc.2 ≤ 0 then .ok { st with bm := alloc.1 }
        else
          match runAgentO sub.agentType (agentRuns st.nextIdx) (agentIds st.nextIdx) alloc.1 with
          | .error m => .error (m, { st with bm := alloc.1 })
          | .ok (r, bm2) =>
            schedLoop cfg agentRuns agentIds rest
              ⟨bm2, st.results ++ [r],
                st.invocations ++ [⟨sub.agentType, sub.description, alloc.2, some sub.id⟩],
                sub.id :: st.completedIds, st.nextIdx + 1⟩)
      (st.bm.allocate ("agent-" ++ toString sub.id)
        (cfg.budget *
          (if sub.complexity == "complex" then 35 / 100
           else if sub.complexity == "medium" then 20 / 100
           else 10 / 100))) := by
  simp only [schedLoop]
  rw [if_neg hrem, if_neg (by rw [hdeps]; simp)]

theorem runTaskCore_simple (cfg : TaskConfig)
    (plan : Except String (List ℚ × List SubTask))
    (agentRuns : ℕ → Except String (List ℚ × AgentResult)) (agentIds : ℕ → String)
    (costs cs : List ℚ) (r : AgentResult)
    (hb : 0 < cfg.budget) (hplan : plan = .ok (costs, []))
    (hrun : agentRuns 0 = .ok (cs, r)) :
    ∃ bmf, runTaskCore cfg plan agentRuns agentIds =
      .ok ⟨bmf, [r],
        [⟨"coder", cfg.task, max 0 (cfg.budget - costs.sum - cfg.budget * (1 / 10)), none⟩],
        [], 1⟩ := by
  subst hplan
  rw [runTaskCore_eq, planner_alloc cfg.budget hb]
  simp only []
  have hpb : ¬ cfg.budget * (1 / 10) ≤ 0 :=
    not_le.mpr (mul_pos hb (by norm_num))
  rw [planTaskO_ok _ _ _ _ hpb]
  simp only [List.isEmpty_nil, if_true]
  obtain ⟨hB, hS, hR⟩ := foldRecordSpend_fields "planner" costs
    ⟨cfg.budget, 0, [⟨"planner", cfg.budget * (1 / 10), 0⟩], cfg.budget * (1 / 10)⟩
  have hrem :
      (foldRecordSpend ⟨cfg.budget, 0, [⟨"planner", cfg.budget * (1 / 10), 0⟩],
        cfg.budget * (1 / 10)⟩ "planner" costs).remaining =
      max 0 (cfg.budget - costs.sum) := by
    rw [remaining_eq, hB, hS]
    norm_num
  have hmin :
      min (max 0 (cfg.budget - costs.sum))
        (max 0 (cfg.budget - costs.sum - cfg.budget * (1 / 10))) =
      max 0 (cfg.budget - costs.sum - cfg.budget * (1 / 10)) :=
    min_eq_right (max_le_max le_rfl (by linarith))
  rw [allocate_eq, hrem, hB, hS, hR]
  simp only []
  rw [show cfg.budget - (0 + costs.sum) - cfg.budget * (1 / 10) =
    cfg.budget - costs.sum - cfg.budget * (1 / 10) by ring]
  rw [hmin, hrun,
    runAgentO_ok "coder" cs r _ _ ("coder", "Coder") (by decide)]
  exact ⟨_, rfl⟩

/-- C5 (amended): whenever the planner phase yields an empty decomposition
(the source maps every parse failure to the empty list), exactly one
coder-preset agent runs, on the original task text, and the budget
allocated to it is `max(0, totalBudget − plannerSpend − reserve)` — which
equals `totalBudget − plannerAllocation` exactly when the planner spent
nothing, since the single-coder allocation is recomputed from the spend
recorded during planning, not from the planner's allocation. -/
theorem C5_amended (cfg : TaskConfig)
    (plan : Except String (List ℚ × List SubTask))
    (agentRuns : ℕ → Except String (List ℚ × AgentResult)) (agentIds : ℕ → String)
    (costs cs : List ℚ) (r : AgentResult)
    (hb : 0 < cfg.budget) (hplan : plan = .ok (costs, []))
    (hrun : agentRuns 0 = .ok (cs, r)) :
    (runTaskModel cfg plan agentRuns agentIds).2.invocations =
      [⟨"coder", cfg.task, max 0 (cfg.budget - costs.sum - cfg.budget * (1 / 10)), none⟩] ∧
    (runTaskModel cfg plan agentRuns agentIds).2.results = [r] := by
  obtain ⟨bmf, hcore⟩ :=
    runTaskCore_simple cfg plan agentRuns agentIds costs cs r hb hplan hrun
  rw [runTaskModel_snd, hcore]
  exact ⟨rfl, rfl⟩

/-- C5 amended witness: budget 10, planner spends 1, coder run succeeds —
the lone coder invocation receives `max 0 (10 − 1 − 1) = 8`. -/
theorem C5_amended_witness :
    (runTaskModel ⟨"t", 10⟩ (.ok ([1], []))
        (fun _ => .ok ([], ⟨"a1", "Coder", "done", 0, 0, 0, 1, .completed⟩))
        (fun _ => "u0")).2.invocations =
      [⟨"coder", "t", max 0 (10 - List.sum [1] - 10 * (1 / 10)), none⟩] ∧
    (runTaskModel ⟨"t", 10⟩ (.ok ([1], []))
        (fun _ => .ok ([], ⟨"a1", "Coder", "done", 0, 0, 0, 1, .completed⟩))
        (fun _ => "u0")).2.results =
      [⟨"a1", "Coder", "done", 0, 0, 0, 1, .completed⟩] :=
  C5_amended ⟨"t", 10⟩ _ _ _ [1] []
    ⟨"a1", "Coder", "done", 0, 0, 0, 1, .completed⟩ (by norm_num) rfl rfl

/-- C5 counterexample: budget 10, planner allocated 1 and spends 1, planner
returns the empty decomposition. The coder agent is allocated
`max 0 (10 − 1 − 1) = 8`, but `totalBudget − plannerAllocation = 10 − 1 = 9`:
the claimed amount differs from the actual allocation whenever the planner
spent anything. -/
theorem C5_counterexample :
    (runTaskModel ⟨"t", 10⟩ (.ok ([1], []))
        (fun _ => .ok ([], ⟨"a1", "Coder", "done", 0, 0, 0, 1, .completed⟩))
        (fun _ => "u0")).2.invocations =
      [⟨"coder", "t", 8, none⟩] ∧
    ((mkBudgetManager 10 (1 / 10)).allocate "planner" (10 * (1 / 10))).2 = 1 ∧
    (8 : ℚ) ≠ 10 - 1 := by
  refine ⟨?_, ?_, by norm_num⟩
  · obtain ⟨bmf, hcore⟩ := runTaskCore_simple ⟨"t", 10⟩ (.ok ([1], []))
      (fun _ => .ok ([], ⟨"a1", "Coder", "done", 0, 0, 0, 1, .completed⟩))
      (fun _ => "u0") [1] [] ⟨"a1", "Coder", "done", 0, 0, 0, 1, .completed⟩
      (by norm_num) rfl rfl
    rw [runTaskModel_snd, hcore]
    norm_num
    rfl
  · rw [planner_alloc 10 (by norm_num)]
    norm_num

theorem runTaskCore_complex (cfg : TaskConfig)
    (plan : Except String (List ℚ × List SubTask))
    (agentRuns : ℕ → Except String (List ℚ × AgentResult)) (agentIds : ℕ → String)
    (costs : List ℚ) (subs : List SubTask)
    (hb : 0 < cfg.budget) (hplan : plan = .ok (costs, subs))
    (hne : subs.isEmpty = false) :
    runTaskCore cfg plan agentRuns agentIds =
      schedLoop cfg agentRuns agentIds (topologicalSort subs)
        ⟨foldRecordSpend ⟨cfg.budget, 0, [⟨"planner", cfg.budget * (1 / 10), 0⟩],
            cfg.budget * (1 / 10)⟩ "planner" costs, [], [], [], 0⟩ := by
  subst hplan
  rw [runTaskCore_eq, planner_alloc cfg.budget hb]
  simp only []
  rw [planTaskO_ok _ _ _ _ (not_le.mpr (mul_pos hb (by norm_num)))]
  simp only []
  rw [if_neg (by simp [hne])]

/-- C6 (code bug): a completed complex-path run leaves the sub-ledger
`agent-1` registered in the BudgetManager — it is never released. The
allocation in `runTask` is keyed `agent-<subtask.id>`, but `runAgent` calls
`budgetManager.release(agent.id)` with the agent's fresh uuid, so the
release is a no-op on an unknown id and the subtask's sub-ledger survives
(likewise `recordSpend(agent.id, ...)` never updates the sub-ledger's
spend). -/
theorem C6_subledger_not_released :
    (runTaskModel ⟨"t", 10⟩ (.ok ([], [⟨1, "s1", "coder", "simple", []⟩]))
        (fun _ => .ok ([], ⟨"a1", "Coder", "done", 0, 0, 0, 1, .completed⟩))
        (fun _ => "u0")).1.status = .completed ∧
    findAgent (runTaskModel ⟨"t", 10⟩ (.ok ([], [⟨1, "s1", "coder", "simple", []⟩]))
        (fun _ => .ok ([], ⟨"a1", "Coder", "done", 0, 0, 0, 1, .completed⟩))
        (fun _ => "u0")).2.bm.agentBudgets "agent-1" = some ⟨"agent-1", 1, 0⟩ := by
  have hcore : runTaskCore ⟨"t", 10⟩ (.ok ([], [⟨1, "s1", "coder", "simple", []⟩]))
      (fun _ => .ok ([], ⟨"a1", "Coder", "done", 0, 0, 0, 1, .completed⟩))
      (fun _ => "u0") =
      .ok ⟨⟨10, 0, [⟨"planner", 1, 0⟩, ⟨"agent-1", 1, 0⟩], 1⟩,
        [⟨"a1", "Coder", "done", 0, 0, 0, 1, .completed⟩],
        [⟨"coder", "s1", 1, some 1⟩], [1], 1⟩ := by
    rw [runTaskCore_complex ⟨"t", 10⟩ _ _ _ [] [⟨1, "s1", "coder", "simple", []⟩]
      (by norm_num) rfl rfl]
    simp only [foldRecordSpend, List.foldl_nil]
    rw [show topologicalSort [⟨1, "s1", "coder", "simple", []⟩] =
      [⟨1, "s1", "coder", "simple", []⟩] from by decide]
    norm_num
    rw [schedLoop_ready _ _ _ _ _ _ (by norm_num [remaining_eq]) (by simp)]
    rw [show ("agent-" ++ toString (1 : Int)) = "agent-1" from rfl]
    rw [allocate_eq]
    simp [setAgent]
    norm_num [min_def, max_def]
    rw [runAgentO_ok "coder" [] _ "u0" _ ("coder", "Coder") (by decide)]
    simp only [foldRecordSpend, List.foldl_nil]
    rw [release_none _ _ (by decide)]
    simp only [schedLoop_nil]
  constructor
  · unfold runTaskModel
    rw [hcore]
    norm_num [remaining_eq, max_def]
  · rw [runTaskModel_snd, hcore]
    decide

/-- C2 witness: two subtasks, the first succeeds, the second names an
unknown preset, so `AGENT_PRESETS[preset]` is undefined and its use throws
mid-task: `runTask` returns (does not throw) a TaskResult with status
`error` carrying the exception message, preserving the first agent's
result. -/
theorem C2_exception_to_error_result_witness :
    (runTaskModel ⟨"t", 10⟩
        (.ok ([], [⟨1, "s1", "coder", "simple", []⟩, ⟨2, "s2", "bogus", "simple", []⟩]))
        (fun _ => .ok ([], ⟨"a1", "Coder", "done", 0, 0, 0, 1, .completed⟩))
        (fun _ => "u0")).1.status = .error ∧
    (runTaskModel ⟨"t", 10⟩
        (.ok ([], [⟨1, "s1", "coder", "simple", []⟩, ⟨2, "s2", "bogus", "simple", []⟩]))
        (fun _ => .ok ([], ⟨"a1", "Coder", "done", 0, 0, 0, 1, .completed⟩))
        (fun _ => "u0")).1.agentResults =
      [⟨"a1", "Coder", "done", 0, 0, 0, 1, .completed⟩] ∧
    (runTaskModel ⟨"t", 10⟩
        (.ok ([], [⟨1, "s1", "coder", "simple", []⟩, ⟨2, "s2", "bogus", "simple", []⟩]))
        (fun _ => .ok ([], ⟨"a1", "Coder", "done", 0, 0, 0, 1, .completed⟩))
        (fun _ => "u0")).1.output = "Error: Cannot read properties of undefined" := by
  have hcore : runTaskCore ⟨"t", 10⟩
      (.ok ([], [⟨1, "s1", "coder", "simple", []⟩, ⟨2, "s2", "bogus", "simple", []⟩]))
      (fun _ => .ok ([], ⟨"a1", "Coder", "done", 0, 0, 0, 1, .completed⟩))
      (fun _ => "u0") =
      .error ("Cannot read properties of undefined",
        ⟨⟨10, 0, [⟨"planner", 1, 0⟩, ⟨"agent-1", 1, 0⟩, ⟨"agent-2", 1, 0⟩], 1⟩,
          [⟨"a1", "Coder", "done", 0, 0, 0, 1, .completed⟩],
          [⟨"coder", "s1", 1, some 1⟩], [1], 1⟩) := by
    rw [runTaskCore_complex ⟨"t", 10⟩ _ _ _ []
      [⟨1, "s1", "coder", "simple", []⟩, ⟨2, "s2", "bogus", "simple", []⟩]
      (by norm_num) rfl rfl]
    simp only [foldRecordSpend, List.foldl_nil]
    rw [show topologicalSort
        [⟨1, "s1", "coder", "simple", []⟩, ⟨2, "s2", "bogus", "simple", []⟩] =
      [⟨1, "s1", "coder", "simple", []⟩, ⟨2, "s2", "bogus", "simple", []⟩] from by decide]
    norm_num
    rw [schedLoop_ready _ _ _ _ _ _ (by norm_num [remaining_eq]) (by simp)]
    rw [show ("agent-" ++ toString (1 : Int)) = "agent-1" from rfl]
    rw [allocate_eq]
    simp [setAgent]
    norm_num [min_def, max_def]
    rw [runAgentO_ok "coder" [] _ "u0" _ ("coder", "Coder") (by decide)]
    simp only [foldRecordSpend, List.foldl_nil]
    rw [release_none _ _ (by decide)]
    rw [schedLoop_ready _ _ _ _ _ _ (by norm_num [remaining_eq]) (by simp)]
    rw [show ("agent-" ++ toString (2 : Int)) = "agent-2" from rfl]
    rw [allocate_eq]
    simp [setAgent]
    norm_num [min_def, max_def]
    rw [runAgentO_badpreset "bogus" [] _ "u0" _ (by decide)]
  have happ := (C2_exception_to_error_result ⟨"t", 10⟩
      (.ok ([], [⟨1, "s1", "coder", "simple", []⟩, ⟨2, "s2", "bogus", "simple", []⟩]))
      (fun _ => .ok ([], ⟨"a1", "Coder", "done", 0, 0, 0, 1, .completed⟩))
      (fun _ => "u0")).2 "Cannot read properties of undefined"
      ⟨⟨10, 0, [⟨"planner", 1, 0⟩, ⟨"agent-1", 1, 0⟩, ⟨"agent-2", 1, 0⟩], 1⟩,
        [⟨"a1", "Coder", "done", 0, 0, 0, 1, .completed⟩],
        [⟨"coder", "s1", 1, some 1⟩], [1], 1⟩ hcore
  rw [happ]
  exact ⟨rfl, rfl, rfl⟩

theorem schedLoop_T2_only (cfg : TaskConfig)
    (agentRuns : ℕ → Except String (List ℚ × AgentResult)) (agentIds : ℕ → String)
    (st : OrchSt) (hcomp : (1 : Int) ∈ st.completedIds)
    (hshape : st.invocations.filterMap AgentInvocation.subtaskId = [1]) :
    (outSt (schedLoop cfg agentRuns agentIds
        [⟨2, "s2", "coder", "simple", [1]⟩] st)).invocations.filterMap
      AgentInvocation.subtaskId = [1] ∨
    (outSt (schedLoop cfg agentRuns agentIds
        [⟨2, "s2", "coder", "simple", [1]⟩] st)).invocations.filterMap
      AgentInvocation.subtaskId = [1, 2] := by
  by_cases hrem : st.bm.remaining ≤ 0
  · rw [schedLoop_break _ _ _ _ _ _ hrem]
    left
    simpa [outSt] using hshape
  · rw [schedLoop_ready _ _ _ _ _ _ hrem (by simp [hcomp])]
    simp only []
    rw [show (if ("simple" : String) == "complex" then (35 : ℚ) / 100
        else if ("simple" : String) == "medium" then (20 : ℚ) / 100
        else (10 : ℚ) / 100) = 10 / 100 from rfl]
    split
    · left
      simpa [outSt] using hshape
    · split
      · left
        simpa [outSt] using hshape
      · rw [schedLoop_nil]
        right
        simp [outSt, List.filterMap_append, hshape]

theorem schedLoop_T1T2_order (cfg : TaskConfig)
    (agentRuns : ℕ → Except String (List ℚ × AgentResult)) (agentIds : ℕ → String)
    (st : OrchSt) (hinv : st.invocations = []) :
    (outSt (schedLoop cfg agentRuns agentIds
        [⟨1, "s1", "coder", "simple", []⟩, ⟨2, "s2", "coder", "simple", [1]⟩]
        st)).invocations.filterMap AgentInvocation.subtaskId = [] ∨
    (outSt (schedLoop cfg agentRuns agentIds
        [⟨1, "s1", "coder", "simple", []⟩, ⟨2, "s2", "coder", "simple", [1]⟩]
        st)).invocations.filterMap AgentInvocation.subtaskId = [1] ∨
    (outSt (schedLoop cfg agentRuns agentIds
        [⟨1, "s1", "coder", "simple", []⟩, ⟨2, "s2", "coder", "simple", [1]⟩]
        st)).invocations.filterMap AgentInvocation.subtaskId = [1, 2] := by
  by_cases hrem1 : st.bm.remaining ≤ 0
  · rw [schedLoop_break _ _ _ _ _ _ hrem1]
    left
    simp [outSt, hinv]
  · rw [schedLoop_ready _ _ _ _ _ _ hrem1 (by simp)]
    simp only []
    rw [show (if ("simple" : String) == "complex" then (35 : ℚ) / 100
        else if ("simple" : String) == "medium" then (20 : ℚ) / 100
        else (10 : ℚ) / 100) = 10 / 100 from rfl]
    split
    · left
      simp [outSt, hinv]
    · split
      · left
        simp [outSt, hinv]
      · exact Or.inr (schedLoop_T2_only cfg agentRuns agentIds _ (by simp) (by simp [hinv]))

/-- C7: with the subtask list `{id 1, no deps}` and `{id 2, depends on 1}`,
in either input order and whatever the oracles do, the sequence of executed
subtask ids is `[]`, `[1]` or `[1, 2]`: subtask 2 never runs before — or
without — subtask 1, so id 1 executes strictly before id 2 whenever id 2
executes, regardless of input order. -/
theorem C7_id1_before_id2 (cfg : TaskConfig)
    (plan : Except String (List ℚ × List SubTask))
    (agentRuns : ℕ → Except String (List ℚ × AgentResult)) (agentIds : ℕ → String)
    (costs : List ℚ) (l : List SubTask)
    (hplan : plan = .ok (costs, l))
    (hl : l = [⟨1, "s1", "coder", "simple", []⟩, ⟨2, "s2", "coder", "simple", [1]⟩] ∨
      l = [⟨2, "s2", "coder", "simple", [1]⟩, ⟨1, "s1", "coder", "simple", []⟩]) :
    (runTaskModel cfg plan agentRuns agentIds).2.invocations.filterMap
        AgentInvocation.subtaskId = [] ∨
    (runTaskModel cfg plan agentRuns agentIds).2.invocations.filterMap
        AgentInvocation.subtaskId = [1] ∨
    (runTaskModel cfg plan agentRuns agentIds).2.invocations.filterMap
        AgentInvocation.subtaskId = [1, 2] := by
  subst hplan
  rw [runTaskModel_snd]
  by_cases hb : 0 < cfg.budget
  · rcases hl with h | h <;> subst h
    · rw [runTaskCore_complex cfg _ _ _ costs
        [⟨1, "s1", "coder", "simple", []⟩, ⟨2, "s2", "coder", "simple", [1]⟩] hb rfl rfl]
      rw [show topologicalSort
          [⟨1, "s1", "coder", "simple", []⟩, ⟨2, "s2", "coder", "simple", [1]⟩] =
        [⟨1, "s1", "coder", "simple", []⟩, ⟨2, "s2", "coder", "simple", [1]⟩] from by decide]
      exact schedLoop_T1T2_order cfg agentRuns agentIds _ rfl
    · rw [runTaskCore_complex cfg _ _ _ costs
        [⟨2, "s2", "coder", "simple", [1]⟩, ⟨1, "s1", "coder", "simple", []⟩] hb rfl rfl]
      rw [show topologicalSort
          [⟨2, "s2", "coder", "simple", [1]⟩, ⟨1, "s1", "coder", "simple", []⟩] =
        [⟨1, "s1", "coder", "simple", []⟩, ⟨2, "s2", "coder", "simple", [1]⟩] from by decide]
      exact schedLoop_T1T2_order cfg agentRuns agentIds _ rfl
  · push_neg at hb
    rw [runTaskCore_eq]
    simp only []
    have hz : ((mkBudgetManager cfg.budget (1 / 10)).allocate "planner"
        (cfg.budget * (1 / 10))).2 ≤ 0 := by
      rw [allocate_eq]
      exact le_trans (min_le_left _ _) (by linarith)
    rw [planTaskO_zero _ _ _ hz]
    simp only [List.isEmpty_nil, if_true]
    split
    · left
      simp [outSt]
    · left
      simp [outSt]

/-- C7 witness: concrete run with the reversed input order `[id 2, id 1]`. -/
theorem C7_id1_before_id2_witness :
    (runTaskModel ⟨"t", 10⟩
        (.ok ([], [⟨2, "s2", "coder", "simple", [1]⟩, ⟨1, "s1", "coder", "simple", []⟩]))
        (fun _ => .ok ([], ⟨"a1", "Coder", "done", 0, 0, 0, 1, .completed⟩))
        (fun _ => "u0")).2.invocations.filterMap AgentInvocation.subtaskId = [] ∨
    (runTaskModel ⟨"t", 10⟩
        (.ok ([], [⟨2, "s2", "coder", "simple", [1]⟩, ⟨1, "s1", "coder", "simple", []⟩]))
        (fun _ => .ok ([], ⟨"a1", "Coder", "done", 0, 0, 0, 1, .completed⟩))
        (fun _ => "u0")).2.invocations.filterMap AgentInvocation.subtaskId = [1] ∨
    (runTaskModel ⟨"t", 10⟩
        (.ok ([], [⟨2, "s2", "coder", "simple", [1]⟩, ⟨1, "s1", "coder", "simple", []⟩]))
        (fun _ => .ok ([], ⟨"a1", "Coder", "done", 0, 0, 0, 1, .completed⟩))
        (fun _ => "u0")).2.invocations.filterMap AgentInvocation.subtaskId = [1, 2] :=
  C7_id1_before_id2 ⟨"t", 10⟩ _ _ _ [] _ rfl (Or.inr rfl)
